import Mathlib

/-!
# Verification of the Agentic RAG System core

Shallow embedding of the repository (agent_app + mcp_server) in Lean 4:
the LangGraph agent state machine (state.py, nodes.py, graph.py), the
conversation memory (memory.py), the knowledge-base search tool (tools.py),
the ingestion pipeline (ingestion.py) and the vector-store insert (db.py).

External services (the Ollama LLM endpoint, the embedding model, the Milvus
vector search) are nondeterministic inputs; they are modelled as an `Oracle`
of response functions, and all theorems quantify over the oracle.
-/

namespace AgenticRAG

/-! ## State model (src/agent_app/state.py)

`AgentState` is a TypedDict with `documents : Annotated[List[str], add]`:
LangGraph merges a node update into the state by *concatenating* the update
value onto `documents` (the `operator.add` reducer) and by overwriting every
other key that the update dict contains.  `chat_history` is the extra key
that `run_agent` puts into the initial state dict. -/

structure AgentState where
  question : String
  documents : List String
  answer : String
  retrieval_count : Nat
  generation_count : Nat
  chat_history : List (String × String)
deriving Repr, DecidableEq

/-- A node update: the dict a node returns.  `none` / omitted key means the
key is absent from the dict.  `documents`, when present, is merged with the
`operator.add` reducer (list concatenation); every other key overwrites. -/
structure NodeUpdate where
  question : Option String := none
  documents : Option (List String) := none
  answer : Option String := none
  retrieval_count : Option Nat := none
  generation_count : Option Nat := none
deriving Repr, DecidableEq

/-- LangGraph merge of a node update into the state: `documents` is reduced
with `operator.add` (concatenation), the other keys are overwritten when
present. -/
def applyUpdate (s : AgentState) (u : NodeUpdate) : AgentState :=
  { question := u.question.getD s.question
    documents := s.documents ++ u.documents.getD []
    answer := u.answer.getD s.answer
    retrieval_count := u.retrieval_count.getD s.retrieval_count
    generation_count := u.generation_count.getD s.generation_count
    chat_history := s.chat_history }

/-! ## External services (src/agent_app/tools.py, src/mcp_server/db.py)

`call_llm` and the embedding + Milvus search are network calls; the oracle
gives their responses (the tenacity retry wrapper around `call_llm` only
re-issues the request and does not change the value returned to the
caller, so it is invisible here).  `dbSearch q` is the list of `text`
fields of the hits that `db.search` returns for the (embedded) query `q`
with the default `top_k = 5`; `embedOk q` tells whether
`generate_embeddings([q])` returned a non-empty embedding list. -/

structure Oracle where
  /-- `call_llm prompt system_prompt` response (system prompt `""` models
  the Python default `system_prompt=None`). -/
  llm : String → String → String
  /-- Whether query embedding succeeds (`generate_embeddings([query])` non-empty). -/
  embedOk : String → Bool
  /-- Texts of the hits returned by `db.search` for the query. -/
  dbSearch : String → List String

/-! ### Python string primitives

Kernel-computable models of the Python string operations the code uses
(`s.strip()`, `s[:n]`, `s.lower()`, `sep.join(l)`, `pat in s`), defined
over the character list of the string. -/

/-- Python `pat in s` on lists of characters: `pat` occurs as a contiguous
substring. -/
def listHasSub (pat : List Char) : List Char → Bool
  | [] => pat.isEmpty
  | c :: cs => pat.isPrefixOf (c :: cs) || listHasSub pat cs

/-- Python `s.strip()`: drop leading and trailing whitespace. -/
def pyStrip (s : String) : String :=
  String.mk (((s.data.dropWhile Char.isWhitespace).reverse.dropWhile
    Char.isWhitespace).reverse)

/-- Python `s[:n]`: the first `n` characters. -/
def pyTake (s : String) (n : Nat) : String :=
  String.mk (s.data.take n)

/-- Python `s.lower()`. -/
def pyLower (s : String) : String :=
  String.mk (s.data.map Char.toLower)

/-- Python `sep.join(l)`. -/
def pyJoin (sep : String) : List String → String
  | [] => ""
  | a :: as => as.foldl (fun acc x => acc ++ sep ++ x) a

/-- `"yes" in response.lower()` — the case-insensitive substring test used by
`grade_documents` and `check_hallucination`. -/
def containsYes (response : String) : Bool :=
  listHasSub "yes".data (pyLower response).data

/-- src/agent_app/tools.py `search_knowledge_base` (top_k left at its
default 5, already folded into `dbSearch`): embed the query, search, format
each hit as `"[i] <text>"` joined by blank lines; error and no-hit cases
are returned as sentinel *content strings*.  (The function's `except`
fallback likewise returns the non-empty content string
`f"Error searching knowledge base: {e}"`; the oracle's failure modes are
carried by `embedOk`/`dbSearch`, and every branch of the function yields a
non-empty string — see `search_knowledge_base_ne_empty`.) -/
def search_knowledge_base (o : Oracle) (query : String) : String :=
  if ¬ o.embedOk query then
    "Error: Could not generate query embedding"
  else
    match o.dbSearch query with
    | [] => "No relevant documents found."
    | results =>
        pyJoin "\n\n"
          ((results.enum).map (fun p => "[" ++ toString (p.1 + 1) ++ "] " ++ p.2))

/-! ## Nodes (src/agent_app/nodes.py) -/

/-- `MAX_RETRIEVAL_ATTEMPTS` in nodes.py. -/
def MAX_RETRIEVAL_ATTEMPTS : Nat := 3

/-- `MAX_GENERATION_ATTEMPTS` in nodes.py. -/
def MAX_GENERATION_ATTEMPTS : Nat := 2

/-- The history block used by the contextualization prompt:
`"\n".join(f"{msg['role']}: {msg['content']}" for msg in history[-6:])`. -/
def historyStr (history : List (String × String)) : String :=
  pyJoin "\n"
    ((history.drop (history.length - 6)).map (fun m => m.1 ++ ": " ++ m.2))

/-- The contextualization prompt built by `retrieve` when history is
non-empty and `retrieval_count == 0`. -/
def contextualizePrompt (history : List (String × String)) (question : String) : String :=
  "Given a chat history and the latest user question which might reference context in the chat history, \nformulate a standalone question which can be understood without the chat history. \nDo NOT answer the question, just reformulate it if needed and otherwise return it as is.\n\nChat History:\n"
    ++ historyStr history
    ++ "\n\nLatest Question: " ++ question
    ++ "\n\nStandalone Question:"

/-- src/agent_app/nodes.py `retrieve`: contextualize the question against
history on the first attempt only, search the knowledge base, and return
`{"documents": [docs] if docs else [], "retrieval_count": count + 1,
"question": final_query}`. -/
def retrieve (o : Oracle) (s : AgentState) : NodeUpdate :=
  let count := s.retrieval_count
  let final_query :=
    if s.chat_history ≠ [] ∧ count = 0 then
      pyStrip (o.llm (contextualizePrompt s.chat_history s.question) "")
    else s.question
  let docs := search_knowledge_base o final_query
  { documents := some (if docs ≠ "" then [docs] else [])
    retrieval_count := some (count + 1)
    question := some final_query }

/-- The grading prompt built by `grade_documents` (context truncated to its
first 2000 characters). -/
def gradePrompt (question context : String) : String :=
  "Given the question and context below, determine if the context contains relevant information to answer the question.\n\nQuestion: "
    ++ question
    ++ "\n\nContext: " ++ pyTake context 2000
    ++ "\n\nRespond with only \x27yes\x27 or \x27no\x27."

/-- src/agent_app/nodes.py `grade_documents`: with no documents return
`{"documents": []}`; otherwise ask the LLM and return `{}` when the
response contains "yes" (case-insensitive), else `{"documents": []}`
(the intended "clear"). -/
def grade_documents (o : Oracle) (s : AgentState) : NodeUpdate :=
  if s.documents = [] then
    { documents := some [] }
  else
    let context := pyJoin "\n" s.documents
    let response := o.llm (gradePrompt s.question context) ""
    if containsYes response then
      {}
    else
      { documents := some [] }

/-- The rewrite prompt built by `rewrite_query`. -/
def rewritePrompt (question : String) : String :=
  "The following question did not return good results from the knowledge base. \nRewrite it to be more specific and searchable.\n\nOriginal question: "
    ++ question
    ++ "\n\nRewritten question:"

/-- src/agent_app/nodes.py `rewrite_query`: ask the LLM for a more specific
query, strip whitespace, return `{"question": new_question}`. -/
def rewrite_query (o : Oracle) (s : AgentState) : NodeUpdate :=
  { question := some (pyStrip (o.llm (rewritePrompt s.question) "")) }

/-- The context string `generate` puts in its prompt:
`"\n".join(documents) if documents else "No context available."`. -/
def generateContext (documents : List String) : String :=
  if documents ≠ [] then pyJoin "\n" documents
  else "No context available."

/-- The fixed system instruction of `generate`. -/
def generateSystemPrompt : String :=
  "You are a helpful and knowledgeable AI assistant. Your goal is to provide concise yet complete answers based strictly on the provided context.\n\nRules:\n1. Be Concise: Provide short, focused answers that directly address the user\x27s question. Avoid unnecessary elaboration or verbosity.\n2. Balance: Strike a balance between brevity and clarity—answers should be short but informative enough to be useful.\n3. Structure: Use bullet points or lists only when necessary to clarify multiple points. Prefer brief paragraphs for single topics.\n4. Tone: Maintain a professional, friendly, and conversational tone. Be direct but not blunt.\n5. Accuracy: Use ONLY the provided context. Do not invent information.\n6. Long Answers: Only provide comprehensive, detailed answers if the user explicitly asks for a \"detailed answer\", \"explain thoroughly\", \"long answer\", or similar.\n7. Missing Info: If the context is insufficient, briefly explain what is missing."

/-- The user prompt built by `generate` (context truncated to its first
4000 characters). -/
def generatePrompt (context question : String) : String :=
  "Context:\n" ++ pyTake context 4000
    ++ "\n\nUser\x27s Question: " ++ question
    ++ "\n\nAnswer (be helpful and conversational):"

/-- src/agent_app/nodes.py `generate`: build the context block, call the
LLM with the fixed system prompt, return
`{"answer": answer, "generation_count": gen_count + 1}`. -/
def generate (o : Oracle) (s : AgentState) : NodeUpdate :=
  let context := generateContext s.documents
  let answer := o.llm (generatePrompt context s.question) generateSystemPrompt
  { answer := some answer
    generation_count := some (s.generation_count + 1) }

/-- The groundedness prompt built by `check_hallucination`. -/
def hallucinationPrompt (context answer : String) : String :=
  "Check if this answer is supported by the context. \n\nContext: "
    ++ pyTake context 2000
    ++ "\n\nAnswer: " ++ answer
    ++ "\n\nIs the answer fully supported by the context? Reply only \x27yes\x27 or \x27no\x27."

/-- src/agent_app/nodes.py `check_hallucination`: no-op (`{}`) when
documents or answer is empty; otherwise the LLM verdict is computed and
logged, and `{}` is returned either way. -/
def check_hallucination (o : Oracle) (s : AgentState) : NodeUpdate :=
  if s.documents = [] ∨ s.answer = "" then
    {}
  else
    let context := pyJoin "\n" s.documents
    let _response := o.llm (hallucinationPrompt context s.answer) ""
    {}

/-- src/agent_app/nodes.py `should_retrieve_again`: `"generate"` when
documents are non-empty, `"generate"` when the retrieval cap is reached,
`"rewrite"` otherwise. -/
def should_retrieve_again (s : AgentState) : String :=
  if s.documents ≠ [] then "generate"
  else if MAX_RETRIEVAL_ATTEMPTS ≤ s.retrieval_count then "generate"
  else "rewrite"

/-- src/agent_app/nodes.py `should_regenerate`: both branches return
`"end"`. -/
def should_regenerate (s : AgentState) : String :=
  if MAX_GENERATION_ATTEMPTS ≤ s.generation_count then "end"
  else "end"

/-! ## Graph (src/agent_app/graph.py `build_graph`)

Nodes retrieve / grade / rewrite / generate / hallucination_check, entry
point `retrieve`, fixed edges retrieve→grade, rewrite→retrieve,
generate→hallucination_check, conditional edges after grade
(`should_retrieve_again`, mapping "generate"↦generate, "rewrite"↦rewrite)
and after hallucination_check (`should_regenerate`, mapping "end"↦END).
LangGraph evaluates a conditional-edge router on the state *after* the
node update has been merged. -/

inductive GNode where
  | retrieve
  | grade
  | rewrite
  | generate
  | hallucinationCheck
  | done
deriving Repr, DecidableEq, BEq

/-- The update computed by one node of the graph (`done` produces none). -/
def nodeRun (o : Oracle) : GNode → AgentState → NodeUpdate
  | .retrieve, s => retrieve o s
  | .grade, s => grade_documents o s
  | .rewrite, s => rewrite_query o s
  | .generate, s => generate o s
  | .hallucinationCheck, s => check_hallucination o s
  | .done, _ => {}

/-- The edge taken after a node, evaluated on the post-update state
(graph.py `add_edge` / `add_conditional_edges`). -/
def nextNode : GNode → AgentState → GNode
  | .retrieve, _ => .grade
  | .grade, s => if should_retrieve_again s = "generate" then .generate else .rewrite
  | .rewrite, _ => .retrieve
  | .generate, _ => .hallucinationCheck
  | .hallucinationCheck, s => if should_regenerate s = "end" then .done else .done
  | .done, _ => .done

/-- One step of the compiled graph: run the node, merge its update, route. -/
def stepG (o : Oracle) : GNode × AgentState → GNode × AgentState
  | (.done, s) => (.done, s)
  | (n, s) =>
      let s2 := applyUpdate s (nodeRun o n s)
      (nextNode n s2, s2)

/-- Iterate `stepG` for a given number of steps. -/
def runG (o : Oracle) : Nat → GNode × AgentState → GNode × AgentState
  | 0, p => p
  | n + 1, p => runG o n (stepG o p)

/-- The list of nodes executed within the given number of steps (stops at
`done`, which executes nothing). -/
def traceG (o : Oracle) : Nat → GNode × AgentState → List GNode
  | 0, _ => []
  | n + 1, p =>
      if p.1 = GNode.done then []
      else p.1 :: traceG o n (stepG o p)

/-! ## Conversation memory (src/agent_app/memory.py)

The Redis list at key `"chat:{session_id}"` is modelled as a `List String`
of raw `"role:content"` entries (oldest first, the `rpush` order).  A Redis
connectivity failure is modelled by the connection being an
`Except String` value: every operation on a failed connection raises. -/

/-- `ltrim key -20 -1`: keep only the last 20 entries of the list. -/
def ltrimLast20 (l : List String) : List String :=
  l.drop (l.length - 20)

/-- `ConversationMemory.add_message_sync`: `rpush` the encoded
`f"{role}:{content}"` entry, then trim to the last 20 entries. -/
def add_message_sync (l : List String) (role content : String) : List String :=
  ltrimLast20 (l ++ [role ++ ":" ++ content])

/-- `msg.split(":", 1)` guarded by `":" in msg`: split a character list at
the *first* colon; `none` when no colon occurs. -/
def splitFirstColon : List Char → Option (List Char × List Char)
  | [] => none
  | c :: cs =>
      if c = ':' then some ([], cs)
      else (splitFirstColon cs).map (fun p => (c :: p.1, p.2))

/-- `ConversationMemory.get_history_sync`: decode each entry that contains
a colon into a `(role, content)` pair (first colon splits); entries without
a colon are skipped. -/
def get_history_sync (l : List String) : List (String × String) :=
  l.filterMap (fun msg =>
    (splitFirstColon msg.data).map (fun p => (String.mk p.1, String.mk p.2)))

/-- `ConversationMemory.clear_sync`: `delete` the key — the list becomes
empty. -/
def clear_sync (_l : List String) : List String := []

/-- The `_save` body of `save_history_background` (memory.py): append the
user turn then the assistant turn; the whole body runs under
`try/except Exception`, so a raised connectivity error is caught and only
logged — the result is `none` (save dropped) instead of an exception. -/
def save_history_background (conn : Except String (List String))
    (question answer : String) : Option (List String) :=
  match conn with
  | .error _ => none
  | .ok l => some (add_message_sync (add_message_sync l "user" question) "assistant" answer)

/-! ## run_agent (src/agent_app/graph.py)

`run_agent` reads the history with `memory.get_history_sync()` — *not*
wrapped in any `try` — builds the initial state, runs the graph to
completion (by the termination theorem 12 steps always suffice for this
initial state), takes the resulting `answer` (the `answer` key is always
present, `run_agent` put it into the initial state, so the
`result.get("answer", ...)` fallback never fires), and fires
`save_history_background` whose outcome is discarded.  `connRead` is the
Redis connection state seen by the history read: `.error e` models a
connectivity failure, in which case `get_history_sync` raises `e`.
`connSave` is the (possibly different) connection state the detached save
thread sees later. -/

def run_agent (o : Oracle) (connRead connSave : Except String (List String))
    (question _session_id : String) : Except String String := do
  let rawHistory ← connRead
  let history := get_history_sync rawHistory
  let initial : AgentState :=
    { question := question
      documents := []
      answer := ""
      retrieval_count := 0
      generation_count := 0
      chat_history := history }
  let result := (runG o 12 (GNode.retrieve, initial)).2
  let answer := result.answer
  let _saved := save_history_background connSave question answer
  return answer

/-! ## Vector store insert (src/mcp_server/db.py `MilvusDB._insert_sync`)

The row batch is built by `zip(texts, embeddings, sources)` — Python `zip`
stops at the shortest input.  The Milvus client returns one id per inserted
row, so `len(result["ids"])` equals the length of the `data` batch.  The
returned pair is `(count, rows actually handed to client.insert)`;
`connected = false` models `self.client is None`, in which case
`_check_connection` raises before anything else. -/

structure MilvusRow where
  text : String
  dense_vector : List Float
  source : String

def insert_sync (connected : Bool) (texts : List String)
    (embeddings : List (List Float)) (sources : List String) :
    Except String (Nat × List MilvusRow) :=
  if ¬ connected then
    .error "Not connected to Milvus. Call connect() first."
  else if texts = [] then
    .ok (0, [])
  else
    let data := (texts.zip (embeddings.zip sources)).map
      (fun p => { text := p.1, dense_vector := p.2.1, source := p.2.2 })
    .ok (data.length, data)

/-! ## Ingestion (src/mcp_server/ingestion.py)

The splitter used by `chunk_text` is langchain
`RecursiveCharacterTextSplitter(chunk_size=CHUNK_SIZE,
chunk_overlap=CHUNK_OVERLAP, separators=["\n\n", "\n", ". ", " ", ""])`.
That class is a dependency of the repository (not under src/), so its
`split_text` algorithm is embedded here from the library: pick the first
separator of the list that occurs in the text (`""` always matches and
ends the scan), split keeping the separator attached to the front of the
following piece (`keep_separator=True`, the class default), recurse on
pieces not shorter than `chunk_size` with the remaining separators, and
greedily merge the short pieces into chunks of at most `chunk_size`
characters keeping a `chunk_overlap`-character tail between consecutive
chunks (`_merge_splits`, joining with `""` since separators were kept). -/

/-- config.py defaults. -/
def CHUNK_SIZE : Nat := 1000

def CHUNK_OVERLAP : Nat := 200

/-- The separator priority list passed to the splitter in `chunk_text`. -/
def RCTS_SEPARATORS : List String := ["\n\n", "\n", ". ", " ", ""]

/-- `re.split("(sep)", text)` pieces for a literal separator `s0 :: srest`:
the segments of `text` between non-overlapping left-to-right occurrences
of the separator (the separators themselves are re-attached by
`splitWithSep`).  The `fuel` argument only makes the recursion structural
(each step consumes at least one character, so `fuel = text.length` never
runs out); the `0, _ :: _` case is unreachable. -/
def splitOnSepFuel (s0 : Char) (srest : List Char) :
    Nat → List Char → List (List Char)
  | _, [] => [[]]
  | 0, _ :: _ => []
  | fuel + 1, c :: rest =>
      if (s0 :: srest).isPrefixOf (c :: rest) then
        [] :: splitOnSepFuel s0 srest fuel (rest.drop srest.length)
      else
        match splitOnSepFuel s0 srest fuel rest with
        | [] => [[c]]
        | p :: ps => (c :: p) :: ps

def splitOnSep (s0 : Char) (srest : List Char) (text : List Char) :
    List (List Char) :=
  splitOnSepFuel s0 srest text.length text

/-- `_split_text_with_regex(text, separator, keep_separator=True)`: with a
non-empty separator, each occurrence is glued onto the front of the piece
that follows it; with the empty separator the text becomes its list of
characters; empty strings are filtered out. -/
def splitWithSep (sep : String) (text : String) : List String :=
  match sep.data with
  | [] => (text.data.map (fun c => String.mk [c])).filter (fun s => s ≠ "")
  | s0 :: srest =>
      let splits :=
        match splitOnSep s0 srest text.data with
        | [] => []
        | p0 :: ptail =>
            String.mk p0 :: ptail.map (fun p => String.mk (s0 :: (srest ++ p)))
      splits.filter (fun s => s ≠ "")

/-- The separator-selection loop at the top of `_split_text`: the first
separator that is `""` or occurs in the text is chosen together with the
list of remaining separators; if none matches, the last separator is kept
with no remaining ones. -/
def chooseSep (text : String) : List String → String × List String
  | [] => ("", [])
  | s :: rest =>
      if s = "" then ("", [])
      else if listHasSub s.data text.data then (s, rest)
      else
        match rest with
        | [] => (s, [])
        | _ :: _ => chooseSep text rest

/-- The pop loop inside `_merge_splits`: drop leading pieces of the
current window while the running total exceeds the overlap (or would make
the next chunk too large).  The invariant `total = Σ lengths` makes the
empty-window case unreachable with `total > 0`. -/
def popWhile (ov cs lenD : Nat) : Nat → List String → Nat × List String
  | total, [] => (total, [])
  | total, c :: cur =>
      if ov < total ∨ (cs < total + lenD ∧ 0 < total) then
        popWhile ov cs lenD (total - c.length) cur
      else (total, c :: cur)

/-- `_join_docs(docs, "")`: join, strip, drop when empty. -/
def joinStrip (docs : List String) : Option String :=
  let text := pyStrip (pyJoin "" docs)
  if text = "" then none else some text

/-- The main loop of `_merge_splits` (separator `""`, so the separator
length terms vanish): emit the current window as a chunk whenever the next
piece would overflow `chunk_size`, keep an overlap tail, and emit the
final window at the end. -/
def mergeLoop (cs ov : Nat) : List String → List String → Nat → List String
  | [], cur, _ => (joinStrip cur).toList
  | d :: ds, cur, total =>
      if cs < total + d.length then
        if cur = [] then
          mergeLoop cs ov ds (cur ++ [d]) (total + d.length)
        else
          (joinStrip cur).toList ++
            (let p := popWhile ov cs d.length total cur
             mergeLoop cs ov ds (p.2 ++ [d]) (p.1 + d.length))
      else
        mergeLoop cs ov ds (cur ++ [d]) (total + d.length)

/-- `_merge_splits(splits, "")`. -/
def mergeSplits (cs ov : Nat) (splits : List String) : List String :=
  mergeLoop cs ov splits [] 0

/-- The per-piece loop of `_split_text`: accumulate pieces shorter than
`chunk_size`; at each over-long piece flush the accumulated run through
`_merge_splits`, then either keep the long piece whole (no separators
left, `recurse = none`) or split it recursively (`recurse = some f`);
flush the final run at the end. -/
def goodLoop (cs ov : Nat) (recurse : Option (String → List String)) :
    List String → List String → List String
  | [], good => if good ≠ [] then mergeSplits cs ov good else []
  | s :: rest, good =>
      if s.length < cs then goodLoop cs ov recurse rest (good ++ [s])
      else
        (if good ≠ [] then mergeSplits cs ov good else []) ++
        (match recurse with
         | none => [s]
         | some f => f s) ++
        goodLoop cs ov recurse rest []

/-- `RecursiveCharacterTextSplitter._split_text(text, separators)`.  The
separator list is never empty at any call site (the recursion only happens
when remaining separators exist), so the `_, [], _` case is unreachable.
The `fuel` argument only makes the recursion structural: by
`chooseSep_snd_lt` the remaining separator list shrinks strictly at each
level, so `fuel = seps.length` never runs out and the `0, _ :: _, _` case
is unreachable. -/
def splitTextFuel (cs ov : Nat) : Nat → List String → String → List String
  | _, [], _ => []
  | 0, _ :: _, _ => []
  | fuel + 1, s :: rest, text =>
      let p := chooseSep text (s :: rest)
      let splits := splitWithSep p.1 text
      goodLoop cs ov
        (if p.2 = [] then none else some (fun t => splitTextFuel cs ov fuel p.2 t))
        splits []

/-- `split_text` of the splitter built by `chunk_text`. -/
def split_text (cs ov : Nat) (text : String) : List String :=
  splitTextFuel cs ov RCTS_SEPARATORS.length RCTS_SEPARATORS text

/-- src/mcp_server/ingestion.py `chunk_text`: split every non-blank text
block and tag each produced chunk with the source file path. -/
def chunk_text (texts : List String) (source : String) :
    List String × List String :=
  texts.foldl
    (fun acc text =>
      if pyStrip text ≠ "" then
        let tcs := split_text CHUNK_SIZE CHUNK_OVERLAP text
        (acc.1 ++ tcs, acc.2 ++ List.replicate tcs.length source)
      else acc)
    ([], [])

/-! ## Document loading and ingestion (src/mcp_server/ingestion.py) -/

/-- The file system and the extension-specific loaders, abstracted:
`pathExists` is `Path(file_path).exists()` and `pages path` is the list of
`page_content` strings that `LOADERS[ext](path).load()` yields. -/
structure FileSystem where
  pathExists : String → Bool
  pages : String → List String

/-- The keys of the `LOADERS` dict, in insertion order. -/
def LOADER_EXTS : List String :=
  [".pdf", ".docx", ".doc", ".pptx", ".ppt", ".xlsx", ".xls", ".txt", ".md"]

/-- The final path component (`Path(...).name`): everything after the last
slash. -/
def afterLastSlash (path : List Char) : List Char :=
  path.foldl (fun acc c => if c = '/' then [] else acc ++ [c]) []

/-- Index of the last `.` in a name (`name.rfind(".")`), if any. -/
def lastDotIdx (name : List Char) : Option Nat :=
  ((name.enum.filter (fun p => p.2 = '.')).map Prod.fst).getLast?

/-- `Path(file_path).suffix`: the extension of the final component,
non-empty only when the last dot is neither the first nor the last
character of the name. -/
def path_suffix (path : String) : String :=
  let name := afterLastSlash path.data
  match lastDotIdx name with
  | none => ""
  | some i => if 0 < i ∧ i + 1 < name.length then String.mk (name.drop i) else ""

/-- src/mcp_server/ingestion.py `_load_document_sync`: missing file →
`FileNotFoundError`; unknown extension → `ValueError` listing the
supported types; otherwise the loader pages with blank pages dropped. -/
def load_document_sync (fs : FileSystem) (file_path : String) :
    Except String (List String) :=
  if ¬ fs.pathExists file_path then
    .error ("File not found: " ++ file_path)
  else
    let ext := pyLower (path_suffix file_path)
    if ext ∈ LOADER_EXTS then
      .ok ((fs.pages file_path).filter (fun t => pyStrip t ≠ ""))
    else
      .error ("Unsupported file type: " ++ ext ++ ". Supported: "
        ++ pyJoin ", " LOADER_EXTS)

/-- src/mcp_server/ingestion.py `ingest_file`: load → (0 on no text) →
chunk → (0 on no chunks) → embed → `ensure_collection` (raises when the
client is not connected) → insert.  Returns the stored-chunk count
together with the rows written to the store (empty when the soft no-op
paths return). -/
def ingest_file (fs : FileSystem) (embed : String → List Float)
    (connected : Bool) (file_path : String) :
    Except String (Nat × List MilvusRow) := do
  let texts ← load_document_sync fs file_path
  if texts = [] then return (0, [])
  let p := chunk_text texts file_path
  if p.1 = [] then return (0, [])
  let embeddings := p.1.map embed
  if ¬ connected then
    throw "Not connected to Milvus. Call connect() first."
  insert_sync connected p.1 embeddings p.2

/-! ## Concrete instances used by the claim theorems and witnesses -/

def oracleC1 : Oracle :=
  ⟨fun _ _ => "yes", fun _ => true, fun _ => ["KB text about X"]⟩

def stateC1 : AgentState := ⟨"What is X?", [], "", 0, 0, []⟩

def oracleC2 : Oracle := ⟨fun _ _ => "no", fun _ => true, fun _ => []⟩

def stateC2 : AgentState := ⟨"q", ["some retrieved text"], "", 1, 0, []⟩

def oracleC4 : Oracle := ⟨fun _ _ => "no", fun _ => true, fun _ => []⟩

def stateC4 : AgentState := ⟨"What is the refund policy?", [], "", 0, 0, []⟩

def oracleC5 : Oracle :=
  ⟨fun _ _ => "yes", fun _ => true, fun _ => ["stored doc"]⟩

def embC10a : List Float := [0.25, 0.5]

def embC10b : List Float := [0.75, 1.0]

def fsC8 : FileSystem :=
  { pathExists := fun p => p != "missing.txt"
    pages := fun p => if p = "blank.txt" then ["   ", ""] else ["Some content."] }

def embedC8 : String → List Float := fun _ => [0.5]

/-! ## Helper lemmas -/

theorem chooseSep_snd_lt (text : String) (s : String) (rest : List String) :
    ((chooseSep text (s :: rest)).2).length < (s :: rest).length := by
  induction rest generalizing s with
  | nil =>
      simp only [chooseSep]
      split
      · simp
      · split <;> simp
  | cons t ts ih =>
      simp only [chooseSep]
      split
      · simp
      · split
        · simp
        · exact Nat.lt_trans (ih t) (by simp)

theorem applyUpdate_emptyUpdate (s : AgentState) : applyUpdate s {} = s := by
  cases s
  simp [applyUpdate]

theorem applyUpdate_documents_nil (s : AgentState) :
    applyUpdate s { documents := some [] } = s := by
  cases s
  simp [applyUpdate]

/-- The `add` reducer makes both outcomes of `grade_documents` (`{}` and
`{"documents": []}`) identity updates: grading never changes the state. -/
theorem grade_documents_state_id (o : Oracle) (s : AgentState) :
    applyUpdate s (grade_documents o s) = s := by
  unfold grade_documents
  split
  · exact applyUpdate_documents_nil s
  · dsimp only
    split
    · exact applyUpdate_emptyUpdate s
    · exact applyUpdate_documents_nil s

/-- `check_hallucination` returns the empty update on every state. -/
theorem check_hallucination_eq_empty (o : Oracle) (s : AgentState) :
    check_hallucination o s = {} := by
  unfold check_hallucination
  split <;> rfl

theorem pyJoin_go_length_le (sep : String) (l : List String) (acc : String) :
    acc.length ≤ (l.foldl (fun a x => a ++ sep ++ x) acc).length := by
  induction l generalizing acc with
  | nil => simp
  | cons a as ih =>
      refine le_trans ?_ (ih (acc ++ sep ++ a))
      simp only [String.length_append]
      omega

/-- `search_knowledge_base` never returns the empty string: the embedding
failure and the no-hit case produce non-empty sentinel strings, and a
formatted hit list starts with a `"[i] "` tag. -/
theorem search_knowledge_base_ne_empty (o : Oracle) (q : String) :
    search_knowledge_base o q ≠ "" := by
  rcases hd : o.dbSearch q with _ | ⟨r, rs⟩ <;> unfold search_knowledge_base <;>
    rw [hd]
  · split <;> decide
  · split
    · decide
    · intro h
      have hlen : (pyJoin "\n\n"
          (((r :: rs).enum).map
            (fun p => "[" ++ toString (p.1 + 1) ++ "] " ++ p.2))).length = 0 :=
        congrArg String.length h
      simp only [List.enum, List.enumFrom, List.map_cons, pyJoin] at hlen
      have hge := pyJoin_go_length_le "\n\n"
        ((rs.enumFrom 1).map (fun p => "[" ++ toString (p.1 + 1) ++ "] " ++ p.2))
        ("[" ++ toString (0 + 1) ++ "] " ++ r)
      rw [hlen] at hge
      simp [String.length_append] at hge
      exact absurd hge.1.1.1 (by decide)

/-- The post-`retrieve` state always has a non-empty `documents` list,
because `search_knowledge_base` never returns `""` (so the guard
`[docs] if docs else []` always takes the `[docs]` branch). -/
theorem applyUpdate_retrieve_documents_ne_nil (o : Oracle) (s : AgentState) :
    (applyUpdate s (retrieve o s)).documents ≠ [] := by
  unfold retrieve applyUpdate
  simp only
  rw [if_pos (search_knowledge_base_ne_empty o _)]
  simp

theorem stepG_retrieve (o : Oracle) (s : AgentState) :
    stepG o (GNode.retrieve, s) =
      (GNode.grade, applyUpdate s (retrieve o s)) := rfl

theorem should_retrieve_again_of_ne_nil (s : AgentState) (h : s.documents ≠ []) :
    should_retrieve_again s = "generate" := by
  unfold should_retrieve_again
  rw [if_pos h]

theorem stepG_grade_of_ne_nil (o : Oracle) (s : AgentState) (h : s.documents ≠ []) :
    stepG o (GNode.grade, s) = (GNode.generate, s) := by
  show (nextNode GNode.grade (applyUpdate s (grade_documents o s)),
        applyUpdate s (grade_documents o s)) = (GNode.generate, s)
  rw [grade_documents_state_id o s]
  simp only [nextNode]
  rw [should_retrieve_again_of_ne_nil s h, if_pos rfl]

theorem stepG_generate (o : Oracle) (s : AgentState) :
    stepG o (GNode.generate, s) =
      (GNode.hallucinationCheck, applyUpdate s (generate o s)) := rfl

theorem stepG_hallucinationCheck (o : Oracle) (s : AgentState) :
    stepG o (GNode.hallucinationCheck, s) = (GNode.done, s) := by
  show (nextNode GNode.hallucinationCheck
          (applyUpdate s (check_hallucination o s)),
        applyUpdate s (check_hallucination o s)) = (GNode.done, s)
  rw [check_hallucination_eq_empty o s, applyUpdate_emptyUpdate s]
  simp only [nextNode, ite_self]

theorem runG_succ (o : Oracle) (n : Nat) (p : GNode × AgentState) :
    runG o (n + 1) p = runG o n (stepG o p) := rfl

theorem runG_done (o : Oracle) (k : Nat) (s : AgentState) :
    runG o k (GNode.done, s) = (GNode.done, s) := by
  induction k with
  | zero => rfl
  | succ n ih => rw [runG_succ]; exact ih

theorem traceG_succ (o : Oracle) (n : Nat) (p : GNode × AgentState) :
    traceG o (n + 1) p =
      if p.1 = GNode.done then [] else p.1 :: traceG o n (stepG o p) := rfl

theorem traceG_done (o : Oracle) (k : Nat) (s : AgentState) :
    traceG o k (GNode.done, s) = [] := by
  cases k with
  | zero => rfl
  | succ n => rw [traceG_succ]; simp

/-- Any state at `retrieve` runs the path
retrieve → grade → generate → hallucination_check → done: retrieval always
finds a (possibly sentinel) non-empty content string, so the post-grade
router always picks `generate`. -/
theorem runG_from_retrieve (o : Oracle) (s : AgentState) (k : Nat) :
    runG o (k + 4) (GNode.retrieve, s) =
      (GNode.done,
        applyUpdate (applyUpdate s (retrieve o s))
          (generate o (applyUpdate s (retrieve o s)))) := by
  rw [runG_succ, stepG_retrieve, runG_succ,
      stepG_grade_of_ne_nil o _ (applyUpdate_retrieve_documents_ne_nil o s),
      runG_succ, stepG_generate, runG_succ, stepG_hallucinationCheck,
      runG_done]

theorem traceG_from_retrieve (o : Oracle) (s : AgentState) (k : Nat) :
    traceG o (k + 4) (GNode.retrieve, s) =
      [GNode.retrieve, GNode.grade, GNode.generate, GNode.hallucinationCheck] := by
  rw [traceG_succ]
  simp only [stepG_retrieve, reduceIte]
  rw [traceG_succ]
  simp only [stepG_grade_of_ne_nil o _ (applyUpdate_retrieve_documents_ne_nil o s),
    reduceIte]
  rw [traceG_succ]
  simp only [stepG_generate, reduceIte]
  rw [traceG_succ]
  simp only [stepG_hallucinationCheck, reduceIte]
  rw [traceG_done]
  rfl

/-! ## Claim theorems -/

/-- C1: from any initial `AgentState` with `retrieval_count = 0` and
`generation_count = 0`, the graph reaches `done` within a bounded number
of node executions — at most 3 of `retrieve`, at most 3 of `grade`, at
most 2 of `rewrite`, exactly 1 of `generate` and exactly 1 of
`hallucination_check` — for every oracle; no infinite loop is reachable
(12 steps always suffice). -/
theorem orchestrator_terminates_bounded (o : Oracle) (s0 : AgentState)
    (_h1 : s0.retrieval_count = 0) (_h2 : s0.generation_count = 0) :
    (runG o 12 (GNode.retrieve, s0)).1 = GNode.done ∧
    (traceG o 12 (GNode.retrieve, s0)).count GNode.retrieve ≤ 3 ∧
    (traceG o 12 (GNode.retrieve, s0)).count GNode.grade ≤ 3 ∧
    (traceG o 12 (GNode.retrieve, s0)).count GNode.rewrite ≤ 2 ∧
    (traceG o 12 (GNode.retrieve, s0)).count GNode.generate = 1 ∧
    (traceG o 12 (GNode.retrieve, s0)).count GNode.hallucinationCheck = 1 := by
  have hrun := runG_from_retrieve o s0 8
  have htr := traceG_from_retrieve o s0 8
  refine ⟨?_, ?_, ?_, ?_, ?_, ?_⟩ <;> rw [show (12 : Nat) = 8 + 4 from rfl]
  · rw [hrun]
  all_goals rw [htr]; decide

theorem orchestrator_terminates_bounded_witness :
    (runG oracleC1 12 (GNode.retrieve, stateC1)).1 = GNode.done ∧
    (traceG oracleC1 12 (GNode.retrieve, stateC1)).count GNode.retrieve ≤ 3 ∧
    (traceG oracleC1 12 (GNode.retrieve, stateC1)).count GNode.grade ≤ 3 ∧
    (traceG oracleC1 12 (GNode.retrieve, stateC1)).count GNode.rewrite ≤ 2 ∧
    (traceG oracleC1 12 (GNode.retrieve, stateC1)).count GNode.generate = 1 ∧
    (traceG oracleC1 12 (GNode.retrieve, stateC1)).count
      GNode.hallucinationCheck = 1 :=
  orchestrator_terminates_bounded oracleC1 stateC1 rfl rfl

/-- C3: `should_retrieve_again` implements exactly the three-case routing
(non-empty documents → "generate"; else retrieval cap reached →
"generate"; else "rewrite") and never returns any other value. -/
theorem should_retrieve_again_routing (s : AgentState) :
    should_retrieve_again s =
      (if s.documents ≠ [] then "generate"
       else if 3 ≤ s.retrieval_count then "generate"
       else "rewrite") ∧
    (should_retrieve_again s = "generate" ∨
      should_retrieve_again s = "rewrite") := by
  constructor
  · rfl
  · unfold should_retrieve_again
    split
    · exact Or.inl rfl
    · split
      · exact Or.inl rfl
      · exact Or.inr rfl

/-- C7: `check_hallucination` returns the empty update on every state (so
the merged state is unchanged in every field, and in particular it is a
no-op when documents or answer is empty), and the router after it
(`should_regenerate`) returns "end" unconditionally. -/
theorem check_hallucination_noop_and_end (o : Oracle) (s : AgentState) :
    check_hallucination o s = {} ∧
    applyUpdate s (check_hallucination o s) = s ∧
    should_regenerate s = "end" := by
  refine ⟨check_hallucination_eq_empty o s, ?_, ?_⟩
  · rw [check_hallucination_eq_empty o s]
    exact applyUpdate_emptyUpdate s
  · unfold should_regenerate
    split <;> rfl

/-- C2 (failing input): with non-empty documents and an LLM grading
response without "yes", `grade_documents` returns `{"documents": []}` as
intended — but under the `Annotated[List[str], add]` reducer this update
concatenates an empty list, so the merged state still holds the old
documents: the "full reset" never happens. -/
theorem grade_clear_leaves_documents :
    grade_documents oracleC2 stateC2 = { documents := some [] } ∧
    containsYes (oracleC2.llm
      (gradePrompt stateC2.question (pyJoin "\n" stateC2.documents)) "")
      = false ∧
    applyUpdate stateC2 (grade_documents oracleC2 stateC2) = stateC2 ∧
    (applyUpdate stateC2 (grade_documents oracleC2 stateC2)).documents
      = ["some retrieved text"] := by
  refine ⟨?_, ?_, ?_, ?_⟩ <;> decide

/-- C4 (failing input): when the vector search returns no hits,
`search_knowledge_base` returns the non-empty sentinel
"No relevant documents found.", which `retrieve` stores as a document;
the run therefore goes straight to `generate` after the **first**
retrieval, with the sentinel — not "No context available." — as the
prompt context. -/
theorem no_hit_sentinel_stored_as_document :
    (runG oracleC4 12 (GNode.retrieve, stateC4)).1 = GNode.done ∧
    (runG oracleC4 12 (GNode.retrieve, stateC4)).2.documents
      = ["No relevant documents found."] ∧
    generateContext (runG oracleC4 12 (GNode.retrieve, stateC4)).2.documents
      = "No relevant documents found." ∧
    generateContext (runG oracleC4 12 (GNode.retrieve, stateC4)).2.documents
      ≠ "No context available." ∧
    (traceG oracleC4 12 (GNode.retrieve, stateC4)).count GNode.retrieve = 1 := by
  refine ⟨?_, ?_, ?_, ?_, ?_⟩ <;> decide

/-! ## Conversation-memory lemmas and claim C6 -/

theorem add_message_sync_length_le (l : List String) (r c : String) :
    (add_message_sync l r c).length ≤ 20 := by
  simp only [add_message_sync, ltrimLast20, List.length_drop,
    List.length_append, List.length_cons, List.length_nil]
  omega

theorem ltrimLast20_of_le (l : List String) (h : l.length ≤ 20) :
    ltrimLast20 l = l := by
  unfold ltrimLast20
  rw [Nat.sub_eq_zero_of_le h]
  exact List.drop_zero l

theorem ltrimLast20_ltrim_append (A B : List String) :
    ltrimLast20 (ltrimLast20 A ++ B) = ltrimLast20 (A ++ B) := by
  unfold ltrimLast20
  rcases le_or_lt A.length 20 with h | h
  · rw [Nat.sub_eq_zero_of_le h, List.drop_zero]
  · simp only [List.length_append, List.length_drop]
    rw [List.drop_append_eq_append_drop, List.drop_append_eq_append_drop,
      List.drop_drop]
    congr 1
    · congr 1
      omega
    · congr 1
      simp only [List.length_drop]
      omega

theorem foldl_add_message_eq_ltrim (ops : List (String × String)) :
    ∀ l : List String,
      ops.foldl (fun acc p => add_message_sync acc p.1 p.2) (ltrimLast20 l)
        = ltrimLast20 (l ++ ops.map (fun p => p.1 ++ ":" ++ p.2)) := by
  induction ops with
  | nil => intro l; simp [List.foldl]
  | cons p ps ih =>
      intro l
      simp only [List.foldl, List.map_cons]
      rw [show add_message_sync (ltrimLast20 l) p.1 p.2
            = ltrimLast20 (ltrimLast20 l ++ [p.1 ++ ":" ++ p.2]) from rfl,
        ltrimLast20_ltrim_append, ih (l ++ [p.1 ++ ":" ++ p.2])]
      simp

theorem splitFirstColon_append (r c : List Char) (h : ':' ∉ r) :
    splitFirstColon (r ++ ':' :: c) = some (r, c) := by
  induction r with
  | nil => simp [splitFirstColon]
  | cons x xs ih =>
      have hx : ¬ x = ':' := fun hx => h (by rw [← hx]; exact List.mem_cons_self x xs)
      simp only [List.cons_append, splitFirstColon, if_neg hx, List.append_eq]
      rw [ih (fun hm => h (List.mem_cons_of_mem x hm))]
      rfl

theorem get_history_sync_map (turns : List (String × String))
    (h : ∀ p ∈ turns, ':' ∉ p.1.data) :
    get_history_sync (turns.map (fun p => p.1 ++ ":" ++ p.2)) = turns := by
  induction turns with
  | nil => rfl
  | cons p ps ih =>
      simp only [List.map_cons, get_history_sync, List.filterMap_cons]
      have hdata : (p.1 ++ ":" ++ p.2).data = p.1.data ++ ':' :: p.2.data := by
        simp [String.data_append]
      rw [hdata, splitFirstColon_append p.1.data p.2.data
        (h p (List.mem_cons_self p ps))]
      have hrest := ih (fun q hq => h q (List.mem_cons_of_mem p hq))
      simp only [get_history_sync] at hrest
      rw [hrest]
      rfl

/-- C6: the stored history never exceeds 20 entries after any sequence of
appends (the oldest entries are the ones evicted: the stored list is
exactly the last-20 suffix of all encoded turns); `clear` empties it; and
after N ≤ 10 appended turns whose roles contain no colon (the
`ConversationTurn` roles are "user"/"assistant"), `get_history` returns
exactly those N turns in insertion order, with role and content recovered
exactly — contents may contain colons, since only the first colon splits. -/
theorem conversation_memory_bounded_roundtrip :
    (∀ ops : List (String × String),
      ops.foldl (fun acc p => add_message_sync acc p.1 p.2) []
        = ltrimLast20 (ops.map (fun p => p.1 ++ ":" ++ p.2))) ∧
    (∀ ops : List (String × String),
      (ops.foldl (fun acc p => add_message_sync acc p.1 p.2) []).length ≤ 20) ∧
    (∀ l : List String, clear_sync l = []) ∧
    (∀ turns : List (String × String), turns.length ≤ 10 →
      (∀ p ∈ turns, ':' ∉ p.1.data) →
      get_history_sync
        (turns.foldl (fun acc p => add_message_sync acc p.1 p.2) []) = turns) := by
  have hfold : ∀ ops : List (String × String),
      ops.foldl (fun acc p => add_message_sync acc p.1 p.2) []
        = ltrimLast20 (ops.map (fun p => p.1 ++ ":" ++ p.2)) := by
    intro ops
    have h := foldl_add_message_eq_ltrim ops []
    simpa using h
  refine ⟨hfold, ?_, fun _ => rfl, ?_⟩
  · intro ops
    rw [hfold ops]
    simp only [ltrimLast20, List.length_drop, List.length_map]
    omega
  · intro turns hlen hcolon
    rw [hfold turns, ltrimLast20_of_le _ (by simp; omega)]
    exact get_history_sync_map turns hcolon

theorem conversation_memory_bounded_roundtrip_witness :
    get_history_sync
      ([("user", "what is a:b?"), ("assistant", "a:b is a pair")].foldl
        (fun acc p => add_message_sync acc p.1 p.2) [])
      = [("user", "what is a:b?"), ("assistant", "a:b is a pair")] :=
  conversation_memory_bounded_roundtrip.2.2.2
    [("user", "what is a:b?"), ("assistant", "a:b is a pair")]
    (by decide) (by decide)

/-! ## Claim C5: memory failures and run_agent -/

/-- C5 (counterexample): a Redis connectivity failure during the history
read is *not* caught — `run_agent` calls `memory.get_history_sync()`
outside any `try`, so the error propagates to the caller and no answer is
returned, contrary to the claim that a read failure is treated as empty
history and the cycle still completes. -/
theorem run_agent_read_failure_propagates :
    run_agent oracleC5
      (Except.error "Error 111 connecting to localhost:6379. Connection refused.")
      (Except.error "Error 111 connecting to localhost:6379. Connection refused.")
      "What is the policy?" "session-1"
      = Except.error "Error 111 connecting to localhost:6379. Connection refused."
    := rfl

/-- C5 (amended): the save half of the claim holds — a failure inside the
background save thread is swallowed (`save_history_background` never
raises, its outcome is discarded) and `run_agent` still returns an answer
— but a history-read failure propagates out of `run_agent` as an
exception instead of being treated as empty history. -/
theorem run_agent_memory_failures (o : Oracle) (entries : List String)
    (connSave : Except String (List String)) (q sid : String) :
    (∃ ans, run_agent o (Except.ok entries) connSave q sid = Except.ok ans) ∧
    (∀ e : String, save_history_background (Except.error e) q sid = none) ∧
    (∀ e : String,
      run_agent o (Except.error e) connSave q sid = Except.error e) :=
  ⟨⟨_, rfl⟩, fun _ => rfl, fun _ => rfl⟩

/-! ## Claim C10: the insert batch is built by zip -/

/-- C10: `_insert_sync` raises no length-mismatch error: with unequal
input lengths the row batch built by `zip` silently truncates to the
shortest input, so exactly `min(len(texts), len(embeddings), len(sources))`
rows are handed to the client; an empty `texts` returns 0 without
contacting the store (no row batch is even built). -/
theorem insert_sync_zip_truncates (texts : List String)
    (embeddings : List (List Float)) (sources : List String)
    (h : texts ≠ []) :
    insert_sync true texts embeddings sources =
      Except.ok
        (min texts.length (min embeddings.length sources.length),
          (texts.zip (embeddings.zip sources)).map
            (fun p => ⟨p.1, p.2.1, p.2.2⟩)) ∧
    insert_sync true [] embeddings sources = Except.ok (0, []) := by
  constructor
  · unfold insert_sync
    rw [if_neg (by simp), if_neg h]
    simp [List.length_zip, List.length_map]
  · rfl

theorem insert_sync_zip_truncates_witness :
    insert_sync true ["t1", "t2", "t3"] [embC10a, embC10b] ["s1", "s2", "s3"] =
      Except.ok (2, [⟨"t1", embC10a, "s1"⟩, ⟨"t2", embC10b, "s2"⟩]) ∧
    insert_sync true [] [embC10a, embC10b] ["s1", "s2", "s3"] =
      Except.ok (0, []) := by
  have h := insert_sync_zip_truncates ["t1", "t2", "t3"] [embC10a, embC10b]
    ["s1", "s2", "s3"] (by simp)
  exact ⟨h.1, h.2⟩

/-! ## Claim C8: ingest_file error contract -/

theorem exceptOk_bind {A B : Type} (a : A) (f : A → Except String B) :
    (do let x ← Except.ok a; f x : Except String B) = f a := rfl


/-- C8: `ingest_file`'s error contract — a missing file fails with a
not-found error; an existing file with an unsupported extension fails
with an unsupported-format error listing the supported types; an existing
supported file whose loading yields no non-blank text blocks (or whose
chunking yields no chunks) returns 0 without error and with no rows
written to the store. -/
theorem ingest_file_error_contract :
    (∀ (fs : FileSystem) (embed : String → List Float) (connected : Bool)
        (path : String),
      fs.pathExists path = false →
      ingest_file fs embed connected path =
        Except.error ("File not found: " ++ path)) ∧
    (∀ (fs : FileSystem) (embed : String → List Float) (connected : Bool)
        (path : String),
      fs.pathExists path = true →
      pyLower (path_suffix path) ∉ LOADER_EXTS →
      ingest_file fs embed connected path =
        Except.error ("Unsupported file type: " ++ pyLower (path_suffix path)
          ++ ". Supported: " ++ pyJoin ", " LOADER_EXTS)) ∧
    (∀ (fs : FileSystem) (embed : String → List Float) (connected : Bool)
        (path : String),
      fs.pathExists path = true →
      pyLower (path_suffix path) ∈ LOADER_EXTS →
      ((fs.pages path).filter (fun t => pyStrip t ≠ "") = [] ∨
        (chunk_text ((fs.pages path).filter (fun t => pyStrip t ≠ "")) path).1
          = []) →
      ingest_file fs embed connected path = Except.ok (0, [])) := by
  refine ⟨?_, ?_, ?_⟩
  · intro fs embed connected path h
    have hload : load_document_sync fs path =
        Except.error ("File not found: " ++ path) := by
      unfold load_document_sync
      rw [h]
      simp
    unfold ingest_file
    rw [hload]
    rfl
  · intro fs embed connected path h hext
    have hload : load_document_sync fs path =
        Except.error ("Unsupported file type: " ++ pyLower (path_suffix path)
          ++ ". Supported: " ++ pyJoin ", " LOADER_EXTS) := by
      unfold load_document_sync
      rw [h]
      simp [hext]
    unfold ingest_file
    rw [hload]
    rfl
  · intro fs embed connected path h hext hempty
    have hload : load_document_sync fs path =
        Except.ok ((fs.pages path).filter (fun t => pyStrip t ≠ "")) := by
      unfold load_document_sync
      rw [h]
      simp [hext]
    unfold ingest_file
    rcases hempty with he | he
    · rw [hload, he]
      rfl
    · by_cases ht : (fs.pages path).filter (fun t => pyStrip t ≠ "") = []
      · rw [hload, ht]
        rfl
      · rw [hload]
        simp only [exceptOk_bind]
        rw [if_neg ht, he]
        rfl

theorem ingest_file_error_contract_witness :
    ingest_file fsC8 embedC8 true "missing.txt" =
      Except.error "File not found: missing.txt" ∧
    ingest_file fsC8 embedC8 true "data.xyz" =
      Except.error
        "Unsupported file type: .xyz. Supported: .pdf, .docx, .doc, .pptx, .ppt, .xlsx, .xls, .txt, .md" ∧
    ingest_file fsC8 embedC8 true "blank.txt" = Except.ok (0, []) := by
  refine ⟨?_, ?_, ?_⟩
  · exact ingest_file_error_contract.1 fsC8 embedC8 true "missing.txt" (by decide)
  · have h := ingest_file_error_contract.2.1 fsC8 embedC8 true "data.xyz"
      (by decide) (by decide)
    exact h
  · exact ingest_file_error_contract.2.2 fsC8 embedC8 true "blank.txt"
      (by decide) (by decide) (Or.inl (by decide))

/-! ## Claim C9: chunking a 2500-character block

Helper lemmas evaluating the splitter on a block of 2500 identical
non-whitespace characters (no coarser separator occurs, so only the
character-level separator applies). -/

theorem listHasSub_replicate_ne (p0 : Char) (ps : List Char) (c : Char)
    (h : p0 ≠ c) : ∀ n, listHasSub (p0 :: ps) (List.replicate n c) = false := by
  intro n
  induction n with
  | zero => rfl
  | succ n ih =>
      rw [List.replicate_succ]
      show ((p0 :: ps).isPrefixOf (c :: List.replicate n c)
        || listHasSub (p0 :: ps) (List.replicate n c)) = false
      rw [ih]
      simp [List.isPrefixOf, h]

theorem chooseSep_replicate (n : Nat) :
    chooseSep (String.mk (List.replicate n 'a')) ["\n\n", "\n", ". ", " ", ""]
      = ("", []) := by
  have h1 : listHasSub "\n\n".data (String.mk (List.replicate n 'a')).data = false :=
    listHasSub_replicate_ne '\n' ['\n'] 'a' (by decide) n
  have h2 : listHasSub "\n".data (String.mk (List.replicate n 'a')).data = false :=
    listHasSub_replicate_ne '\n' [] 'a' (by decide) n
  have h3 : listHasSub ". ".data (String.mk (List.replicate n 'a')).data = false :=
    listHasSub_replicate_ne '.' [' '] 'a' (by decide) n
  have h4 : listHasSub " ".data (String.mk (List.replicate n 'a')).data = false :=
    listHasSub_replicate_ne ' ' [] 'a' (by decide) n
  simp [chooseSep, h1, h2, h3, h4]

theorem splitWithSep_empty_sep (n : Nat) :
    splitWithSep "" (String.mk (List.replicate n 'a'))
      = List.replicate n (String.mk ['a']) := by
  show ((List.replicate n 'a').map (fun c => String.mk [c])).filter
      (fun s => s ≠ "") = _
  rw [List.map_replicate]
  exact List.filter_eq_self.mpr
    (fun a ha => by rw [List.eq_of_mem_replicate ha]; decide)

theorem goodLoop_all_good (cs ov : Nat) (r : Option (String → List String)) :
    ∀ (splits good : List String), (∀ s ∈ splits, s.length < cs) →
      goodLoop cs ov r splits good =
        if good ++ splits = [] then [] else mergeSplits cs ov (good ++ splits) := by
  intro splits
  induction splits with
  | nil =>
      intro good _
      show (if good ≠ [] then mergeSplits cs ov good else []) = _
      by_cases hg : good = [] <;> simp [hg]
  | cons s rest ih =>
      intro good hall
      simp only [goodLoop]
      rw [if_pos (hall s (List.mem_cons_self s rest))]
      rw [ih (good ++ [s]) (fun t ht => hall t (List.mem_cons_of_mem s ht))]
      simp [List.append_assoc]

theorem foldl_append_singleton (c : Char) :
    ∀ (k : Nat) (acc : String),
      List.foldl (fun a x => a ++ "" ++ x) acc
          (List.replicate k (String.mk [c]))
        = String.mk (acc.data ++ List.replicate k c) := by
  intro k
  induction k with
  | zero =>
      intro acc
      show acc = String.mk (acc.data ++ [])
      rw [List.append_nil]
  | succ k ih =>
      intro acc
      simp only [List.replicate_succ, List.foldl_cons]
      rw [ih (acc ++ "" ++ String.mk [c])]
      apply congrArg
      show acc.data ++ [] ++ [c] ++ List.replicate k c
        = acc.data ++ List.replicate (k + 1) c
      simp [List.replicate_succ, List.append_assoc]

theorem pyJoin_replicate_singleton (c : Char) (k : Nat) (hk : 0 < k) :
    pyJoin "" (List.replicate k (String.mk [c]))
      = String.mk (List.replicate k c) := by
  cases k with
  | zero => omega
  | succ k =>
      simp only [List.replicate_succ, pyJoin]
      rw [foldl_append_singleton c k (String.mk [c])]
      apply congrArg
      show [c] ++ List.replicate k c = List.replicate (k + 1) c
      simp [List.replicate_succ]

theorem dropWhile_ws_replicate (c : Char) (hc : c.isWhitespace = false)
    (m : Nat) :
    List.dropWhile Char.isWhitespace (List.replicate m c)
      = List.replicate m c := by
  cases m with
  | zero => rfl
  | succ m => rw [List.replicate_succ, List.dropWhile_cons]; simp [hc]

theorem pyStrip_replicate (c : Char) (hc : c.isWhitespace = false) (k : Nat) :
    pyStrip (String.mk (List.replicate k c)) = String.mk (List.replicate k c) := by
  show String.mk ((((List.replicate k c).dropWhile
      Char.isWhitespace).reverse.dropWhile Char.isWhitespace).reverse) = _
  rw [dropWhile_ws_replicate c hc, List.reverse_replicate,
    dropWhile_ws_replicate c hc, List.reverse_replicate]

theorem joinStrip_replicate (c : Char) (hc : c.isWhitespace = false) (k : Nat)
    (hk : 0 < k) :
    joinStrip (List.replicate k (String.mk [c]))
      = some (String.mk (List.replicate k c)) := by
  unfold joinStrip
  rw [pyJoin_replicate_singleton c k hk, pyStrip_replicate c hc k]
  rw [if_neg (fun h => by
    have hd := congrArg String.data h
    simp at hd
    omega)]

theorem popWhile_replicate (c : Char) (ov cs : Nat) (h1 : ov < cs) :
    ∀ d, ov + d ≤ cs →
      popWhile ov cs 1 (ov + d) (List.replicate (ov + d) (String.mk [c]))
        = (ov, List.replicate ov (String.mk [c])) := by
  intro d
  induction d with
  | zero =>
      intro _
      cases hov : ov with
      | zero => rfl
      | succ j =>
          simp only [Nat.add_zero, List.replicate_succ, popWhile]
          rw [if_neg (by omega)]
  | succ d ih =>
      intro hd
      have hrep : List.replicate (ov + (d + 1)) (String.mk [c])
          = String.mk [c] :: List.replicate (ov + d) (String.mk [c]) := by
        rw [show ov + (d + 1) = (ov + d) + 1 by omega, List.replicate_succ]
      rw [hrep]
      simp only [popWhile]
      rw [if_pos (Or.inl (by omega))]
      have hlen : (String.mk [c]).length = 1 := rfl
      rw [hlen, show ov + (d + 1) - 1 = ov + d by omega]
      exact ih (by omega)

theorem mergeLoop_fill (c : Char) (cs ov : Nat) :
    ∀ (m k n2 : Nat), k + m ≤ cs →
      mergeLoop cs ov (List.replicate (n2 + m) (String.mk [c]))
          (List.replicate k (String.mk [c])) k
        = mergeLoop cs ov (List.replicate n2 (String.mk [c]))
          (List.replicate (k + m) (String.mk [c])) (k + m) := by
  intro m
  induction m with
  | zero => intro k n2 _; rfl
  | succ m ih =>
      intro k n2 hkm
      have hrep : List.replicate (n2 + (m + 1)) (String.mk [c])
          = String.mk [c] :: List.replicate (n2 + m) (String.mk [c]) := by
        rw [show n2 + (m + 1) = (n2 + m) + 1 by omega, List.replicate_succ]
      rw [hrep]
      simp only [mergeLoop]
      have hlen : (String.mk [c]).length = 1 := rfl
      rw [hlen]
      rw [if_neg (by omega)]
      have happ : List.replicate k (String.mk [c]) ++ [String.mk [c]]
          = List.replicate (k + 1) (String.mk [c]) := by
        rw [show [String.mk [c]] = List.replicate 1 (String.mk [c]) from rfl,
          List.append_replicate_replicate]
      rw [happ]
      rw [ih (k + 1) n2 (by omega)]
      rw [show k + 1 + m = k + (m + 1) by omega]

theorem mergeLoop_emit (c : Char) (hc : c.isWhitespace = false) (cs ov : Nat)
    (h1 : ov < cs) (ds : List String) :
    mergeLoop cs ov (String.mk [c] :: ds)
        (List.replicate cs (String.mk [c])) cs
      = String.mk (List.replicate cs c)
          :: mergeLoop cs ov ds (List.replicate (ov + 1) (String.mk [c]))
              (ov + 1) := by
  simp only [mergeLoop]
  have hlen : (String.mk [c]).length = 1 := rfl
  rw [hlen]
  rw [if_pos (by omega)]
  rw [if_neg (by
    intro hnil
    have := congrArg List.length hnil
    simp at this
    omega)]
  rw [joinStrip_replicate c hc cs (by omega)]
  have hpw := popWhile_replicate c ov cs h1 (cs - ov) (by omega)
  rw [show ov + (cs - ov) = cs from by omega] at hpw
  rw [hpw]
  have happ : List.replicate ov (String.mk [c]) ++ [String.mk [c]]
      = List.replicate (ov + 1) (String.mk [c]) := by
    rw [show [String.mk [c]] = List.replicate 1 (String.mk [c]) from rfl,
      List.append_replicate_replicate]
  rw [happ]
  rfl

theorem mergeSplits_replicate_2500 :
    mergeSplits 1000 200 (List.replicate 2500 (String.mk ['a']))
      = [String.mk (List.replicate 1000 'a'), String.mk (List.replicate 1000 'a'),
          String.mk (List.replicate 900 'a')] := by
  have hws : ('a').isWhitespace = false := by decide
  have hA : mergeLoop 1000 200 (List.replicate 2500 (String.mk ['a'])) [] 0
      = mergeLoop 1000 200 (List.replicate 1500 (String.mk ['a']))
          (List.replicate 1000 (String.mk ['a'])) 1000 := by
    have h := mergeLoop_fill 'a' 1000 200 1000 0 1500 (by omega)
    rw [show (1500 + 1000 : Nat) = 2500 from rfl,
      show (0 + 1000 : Nat) = 1000 from rfl,
      show List.replicate 0 (String.mk ['a']) = [] from rfl] at h
    exact h
  have hB : mergeLoop 1000 200 (List.replicate 1500 (String.mk ['a']))
        (List.replicate 1000 (String.mk ['a'])) 1000
      = String.mk (List.replicate 1000 'a')
          :: mergeLoop 1000 200 (List.replicate 1499 (String.mk ['a']))
              (List.replicate 201 (String.mk ['a'])) 201 := by
    have h := mergeLoop_emit 'a' hws 1000 200 (by omega)
      (List.replicate 1499 (String.mk ['a']))
    rw [show (200 + 1 : Nat) = 201 from rfl] at h
    rw [show (1500 : Nat) = 1499 + 1 from rfl, List.replicate_succ]
    exact h
  have hC : mergeLoop 1000 200 (List.replicate 1499 (String.mk ['a']))
        (List.replicate 201 (String.mk ['a'])) 201
      = mergeLoop 1000 200 (List.replicate 700 (String.mk ['a']))
          (List.replicate 1000 (String.mk ['a'])) 1000 := by
    have h := mergeLoop_fill 'a' 1000 200 799 201 700 (by omega)
    rw [show (700 + 799 : Nat) = 1499 from rfl,
      show (201 + 799 : Nat) = 1000 from rfl] at h
    exact h
  have hD : mergeLoop 1000 200 (List.replicate 700 (String.mk ['a']))
        (List.replicate 1000 (String.mk ['a'])) 1000
      = String.mk (List.replicate 1000 'a')
          :: mergeLoop 1000 200 (List.replicate 699 (String.mk ['a']))
              (List.replicate 201 (String.mk ['a'])) 201 := by
    have h := mergeLoop_emit 'a' hws 1000 200 (by omega)
      (List.replicate 699 (String.mk ['a']))
    rw [show (200 + 1 : Nat) = 201 from rfl] at h
    rw [show (700 : Nat) = 699 + 1 from rfl, List.replicate_succ]
    exact h
  have hE : mergeLoop 1000 200 (List.replicate 699 (String.mk ['a']))
        (List.replicate 201 (String.mk ['a'])) 201
      = mergeLoop 1000 200 (List.replicate 0 (String.mk ['a']))
          (List.replicate 900 (String.mk ['a'])) 900 := by
    have h := mergeLoop_fill 'a' 1000 200 699 201 0 (by omega)
    rw [show (0 + 699 : Nat) = 699 from rfl,
      show (201 + 699 : Nat) = 900 from rfl] at h
    exact h
  have hF : mergeLoop 1000 200 (List.replicate 0 (String.mk ['a']))
        (List.replicate 900 (String.mk ['a'])) 900
      = [String.mk (List.replicate 900 'a')] := by
    show (joinStrip (List.replicate 900 (String.mk ['a']))).toList = _
    rw [joinStrip_replicate 'a' hws 900 (by omega)]
    rfl
  show mergeLoop 1000 200 (List.replicate 2500 (String.mk ['a'])) [] 0 = _
  rw [hA, hB, hC, hD, hE, hF]

theorem splitTextFuel_cons (cs ov fuel : Nat) (s : String) (rest : List String)
    (text : String) :
    splitTextFuel cs ov (fuel + 1) (s :: rest) text =
      (let p := chooseSep text (s :: rest)
       let splits := splitWithSep p.1 text
       goodLoop cs ov
         (if p.2 = [] then none
          else some (fun t => splitTextFuel cs ov fuel p.2 t)) splits []) := rfl

theorem split_text_replicate_2500 :
    split_text 1000 200 (String.mk (List.replicate 2500 'a'))
      = [String.mk (List.replicate 1000 'a'), String.mk (List.replicate 1000 'a'),
          String.mk (List.replicate 900 'a')] := by
  unfold split_text RCTS_SEPARATORS
  rw [show (["\n\n", "\n", ". ", " ", ""] : List String).length = 4 + 1 from rfl]
  rw [splitTextFuel_cons]
  simp only [chooseSep_replicate 2500, reduceIte]
  rw [splitWithSep_empty_sep 2500]
  rw [goodLoop_all_good 1000 200 none (List.replicate 2500 (String.mk ['a'])) []
    (fun s hs => by rw [List.eq_of_mem_replicate hs]; decide)]
  rw [List.nil_append]
  rw [if_neg (by
    intro h
    have hlen := congrArg List.length h
    rw [List.length_replicate] at hlen
    exact absurd hlen (by decide))]
  exact mergeSplits_replicate_2500

/-- Every source tag produced by `chunk_text` equals the input file path
(the sources list is built only from `[source] * len(chunks)` blocks). -/
theorem chunk_text_sources_eq :
    ∀ (texts : List String) (source : String) (acc : List String × List String),
      (∀ s ∈ acc.2, s = source) →
      ∀ s ∈ (texts.foldl
          (fun acc text =>
            if pyStrip text ≠ "" then
              let tcs := split_text CHUNK_SIZE CHUNK_OVERLAP text
              (acc.1 ++ tcs, acc.2 ++ List.replicate tcs.length source)
            else acc) acc).2, s = source := by
  intro texts
  induction texts with
  | nil => intro source acc hacc; simpa using hacc
  | cons t ts ih =>
      intro source acc hacc
      simp only [List.foldl_cons]
      apply ih
      by_cases ht : pyStrip t ≠ ""
      · rw [if_pos ht]
        intro s hs
        rcases List.mem_append.mp hs with h1 | h1
        · exact hacc s h1
        · exact List.eq_of_mem_replicate h1
      · rw [if_neg ht]
        exact hacc

theorem chunk_text_replicate_2500 :
    chunk_text [String.mk (List.replicate 2500 'a')] "notes.txt"
      = ([String.mk (List.replicate 1000 'a'), String.mk (List.replicate 1000 'a'),
          String.mk (List.replicate 900 'a')],
          ["notes.txt", "notes.txt", "notes.txt"]) := by
  unfold chunk_text
  simp only [List.foldl_cons, List.foldl_nil]
  rw [if_pos (show pyStrip (String.mk (List.replicate 2500 'a')) ≠ "" by
    rw [pyStrip_replicate 'a' (by decide) 2500]
    intro h
    have hlen := congrArg List.length (congrArg String.data h)
    rw [show (String.mk (List.replicate 2500 'a')).data
        = List.replicate 2500 'a' from rfl, List.length_replicate] at hlen
    exact absurd hlen (by decide))]
  rw [show CHUNK_SIZE = 1000 from rfl, show CHUNK_OVERLAP = 200 from rfl,
    split_text_replicate_2500]
  rfl

/-- C9 (counterexample): chunking a single plain-text block of exactly
2500 characters with `chunk_size = 1000` and `overlap = 200`, when only
the character-level separator applies, produces 3 chunks — not 4 as the
claim states. -/
theorem chunk_text_2500_not_four_chunks :
    ((chunk_text [String.mk (List.replicate 2500 'a')] "notes.txt").1).length
      ≠ 4 := by
  rw [chunk_text_replicate_2500]
  decide

/-- C9 (amended): chunking a single plain-text block of exactly 2500
characters with `chunk_size = 1000` and `overlap = 200`, when only the
character-level separator applies, produces exactly **3** chunks with
boundaries 0–1000, 800–1800 and 1600–2500 (the stride is
`chunk_size - overlap = 800`, and the final 900-character chunk already
contains the remainder), and every produced chunk's source equals the
input file path. -/
theorem chunk_text_2500_three_chunks :
    (chunk_text [String.mk (List.replicate 2500 'a')] "notes.txt").1
      = [String.mk ((List.replicate 2500 'a').take 1000),
          String.mk (((List.replicate 2500 'a').drop 800).take 1000),
          String.mk ((List.replicate 2500 'a').drop 1600)] ∧
    ((chunk_text [String.mk (List.replicate 2500 'a')] "notes.txt").1).length
      = 3 ∧
    (chunk_text [String.mk (List.replicate 2500 'a')] "notes.txt").2
      = ["notes.txt", "notes.txt", "notes.txt"] ∧
    (∀ (texts : List String) (source : String),
      ∀ s ∈ (chunk_text texts source).2, s = source) := by
  refine ⟨?_, ?_, ?_, ?_⟩
  · rw [chunk_text_replicate_2500]
    rw [List.take_replicate, List.drop_replicate, List.drop_replicate,
      List.take_replicate]
    rfl
  · rw [chunk_text_replicate_2500]
    rfl
  · rw [chunk_text_replicate_2500]
  · intro texts source
    exact chunk_text_sources_eq texts source ([], []) (by simp)

end AgenticRAG
